import Mathlib

/-!
Verification of the Integer Resonance CRISPR analyzer (`analyze.py`).

Sequences are modelled as `List Char`; Python's `str.upper()` on the four-letter
alphabet is modelled by mapping `Char.toUpper` over the list; Python integers are
modelled by `Int` (all values here are small, so the float round-trip
`int((t - 1800) * 1000 / 1000)` in the source is exact and equals `t - 1800`).
-/

namespace Analyze

/-- Position-specific nucleotide weights: 20 rows, columns in the order A, C, G, T
(`POSITION_WEIGHTS` in the source). -/
def POSITION_WEIGHTS : List (List Nat) :=
  [[120, 80, 95, 105], [115, 85, 90, 110], [110, 90, 85, 115], [105, 95, 80, 120],
   [125, 75, 90, 110], [130, 70, 85, 115], [120, 80, 95, 105], [115, 85, 90, 110],
   [110, 90, 100, 100], [105, 95, 105, 95], [100, 100, 105, 95], [95, 105, 100, 100],
   [90, 110, 95, 105], [85, 115, 90, 110], [80, 120, 95, 105], [85, 115, 90, 110],
   [90, 110, 95, 105], [95, 105, 100, 100], [100, 100, 100, 100], [105, 95, 100, 100]]

/-- Table lookup `POSITION_WEIGHTS[pos, idx]` (in the source the indices are always
in range when the entry is read). -/
def posWeight (pos idx : Nat) : Nat := (POSITION_WEIGHTS.getD pos []).getD idx 0

/-- The dinucleotide bonus dictionary `DINUC_BONUS`, with the Python
`DINUC_BONUS.get(key, 0)` default folded in: any list that is not one of the
sixteen two-character keys yields 0. -/
def DINUC_BONUS (p : List Char) : Nat :=
  if p = ['G', 'G'] then 50 else if p = ['C', 'C'] then 45
  else if p = ['A', 'A'] then 40 else if p = ['T', 'T'] then 38
  else if p = ['G', 'C'] then 42 else if p = ['C', 'G'] then 40
  else if p = ['A', 'T'] then 35 else if p = ['T', 'A'] then 32
  else if p = ['A', 'G'] then 38 else if p = ['G', 'A'] then 36
  else if p = ['C', 'T'] then 34 else if p = ['T', 'C'] then 33
  else if p = ['A', 'C'] then 36 else if p = ['C', 'A'] then 35
  else if p = ['G', 'T'] then 34 else if p = ['T', 'G'] then 33
  else 0

/-- `GC_OPTIMAL_MIN = 8` (40% of 20bp). -/
def GC_OPTIMAL_MIN : Nat := 8

/-- `GC_OPTIMAL_MAX = 12` (60% of 20bp). -/
def GC_OPTIMAL_MAX : Nat := 12

/-- `GC_BONUS_MAX = 80`. -/
def GC_BONUS_MAX : Int := 80

/-- `encode_nucleotide`: dictionary lookup with default -1. -/
def encode_nucleotide (c : Char) : Int :=
  if c.toUpper = 'A' then 0
  else if c.toUpper = 'C' then 1
  else if c.toUpper = 'G' then 2
  else if c.toUpper = 'T' then 3
  else -1

/-- Single uppercase base membership check, `b in 'ACGT'` in the source. -/
def isBase (c : Char) : Bool := c == 'A' || c == 'C' || c == 'G' || c == 'T'

/-- The length-mismatch message produced by `validate_sequence`. -/
def lengthErrorMsg (n : Nat) : List Char :=
  "Sequence must be 23bp (20bp guide + NGG PAM), got ".toList ++ (Nat.repr n).toList
    ++ "bp".toList

/-- The invalid-guide-base message produced by `validate_sequence`. -/
def guideErrorMsg : List Char :=
  "Guide sequence contains invalid bases (must be A, C, G, T)".toList

/-- The bad-PAM message produced by `validate_sequence` (carries the PAM slice). -/
def pamErrorMsg (pam : List Char) : List Char :=
  "PAM must end with GG, got ".toList ++ pam

/-- `validate_sequence`: length 23, guide alphabet, PAM ends with "GG"; returns the
pair `(is_valid, error_message)`. -/
def validate_sequence (s : List Char) : Bool × List Char :=
  if s.length ≠ 23 then (false, lengthErrorMsg s.length)
  else if ((s.take 20).map Char.toUpper).all isBase = false then (false, guideErrorMsg)
  else if List.isSuffixOf ['G', 'G'] (((s.drop 20).take 3).map Char.toUpper) = false then
    (false, pamErrorMsg ((s.drop 20).take 3))
  else (true, [])

/-- The base-score loop of `calculate_integer_resonance_score`: positions whose base
encodes to a nonnegative index add their table weight, all others add nothing. -/
def baseScore : Nat → List Char → Nat
  | _, [] => 0
  | pos, c :: rest =>
    (if 0 ≤ encode_nucleotide c then posWeight pos (encode_nucleotide c).toNat else 0)
      + baseScore (pos + 1) rest

/-- The dinucleotide loop: for `i in range(19)` add the bonus of the slice
`guide[i:i+2]`. -/
def dinucScore (guide : List Char) : Nat :=
  ((List.range 19).map (fun i => DINUC_BONUS ((guide.drop i).take 2))).sum

/-- The GC-content bonus of `calculate_integer_resonance_score`. -/
def gcBonus (gc_count : Nat) : Int :=
  if GC_OPTIMAL_MIN ≤ gc_count ∧ gc_count ≤ GC_OPTIMAL_MAX then GC_BONUS_MAX
  else
    max 0 (GC_BONUS_MAX -
      (min ((gc_count : Int) - (GC_OPTIMAL_MIN : Nat)).natAbs
        ((gc_count : Int) - (GC_OPTIMAL_MAX : Nat)).natAbs : Int) * 15)

/-- The score of an already-uppercased guide: total of the three sub-scores, shifted
by the empirical floor 1800 and clamped to [0, 1000]. -/
def resonanceOfGuide (guide : List Char) : Int :=
  max 0 (min 1000
    ((baseScore 0 guide : Int) + (dinucScore guide : Int)
      + gcBonus (guide.count 'G' + guide.count 'C') - 1800))

/-- `calculate_integer_resonance_score`: works on `seq[:20].upper()`. -/
def calculate_integer_resonance_score (s : List Char) : Int :=
  resonanceOfGuide ((s.take 20).map Char.toUpper)

/-- `predict_efficiency`: maps a score to a tier string. -/
def predict_efficiency (score : Int) : String :=
  if score ≥ 700 then "High"
  else if score ≥ 400 then "Medium"
  else "Low"

/-- Does `s` start with `pat`? (the per-position match test of Python's scan). -/
def startsWith : List Char → List Char → Bool
  | [], _ => true
  | _ :: _, [] => false
  | p :: ps, c :: cs => p == c && startsWith ps cs

/-- Fuel-driven core of Python's `str.count`: counts non-overlapping occurrences of
`pat`, scanning left to right and jumping over each match. -/
def countOccAux (pat : List Char) : Nat → List Char → Nat
  | 0, _ => 0
  | _ + 1, [] => 0
  | fuel + 1, c :: rest =>
    if startsWith pat (c :: rest) = true then
      1 + countOccAux pat fuel (rest.drop (pat.length - 1))
    else
      countOccAux pat fuel rest

/-- Python's `s.count(pat)` for a nonempty pattern. -/
def countOcc (pat s : List Char) : Nat := countOccAux pat s.length s

/-- The per-base run statistic of `calculate_specificity`:
`max(guide.count(base * i) for i in range(4, 10))`. -/
def maxRunStat (guide : List Char) (b : Char) : Nat :=
  ((List.range' 4 6).map (fun i => countOcc (List.replicate i b) guide)).foldr Nat.max 0

/-- The total homopolymer penalty subtracted by `calculate_specificity`
(the loop `for base in 'ACGT'`). -/
def runPenalty (guide : List Char) : Nat :=
  (['A', 'C', 'G', 'T'].map (fun b =>
    if 0 < maxRunStat guide b then maxRunStat guide b * 50 else 0)).sum

/-- The specificity of an already-uppercased guide. -/
def specificityOfGuide (guide : List Char) : Int :=
  max 0 (min 1000
    (800 - (runPenalty guide : Int)
      - (if guide.dedup.length < 4 then 100 else 0)
      + (if GC_OPTIMAL_MIN ≤ guide.count 'G' + guide.count 'C'
            ∧ guide.count 'G' + guide.count 'C' ≤ GC_OPTIMAL_MAX then 100 else 0)))

/-- `calculate_specificity`: works on `seq[:20].upper()`. -/
def calculate_specificity (s : List Char) : Int :=
  specificityOfGuide ((s.take 20).map Char.toUpper)

/-- The per-sequence result record returned by `analyze_single`. -/
structure ScoreResult where
  sequence : List Char
  int_resonance_score : Option Int
  efficiency_prediction : Option String
  specificity_score : Option Int
  error : Option (List Char)

/-- `analyze_single`: validate, then either report the error with all score fields
null, or fill in all three score fields with a null error. -/
def analyze_single (s : List Char) : ScoreResult :=
  if (validate_sequence s).1 = false then
    { sequence := s, int_resonance_score := none, efficiency_prediction := none,
      specificity_score := none, error := some (validate_sequence s).2 }
  else
    { sequence := s,
      int_resonance_score := some (calculate_integer_resonance_score s),
      efficiency_prediction := some (predict_efficiency (calculate_integer_resonance_score s)),
      specificity_score := some (calculate_specificity s),
      error := none }

/-- Modelled from the spec: the Semiprime Factorizer (spec section 4.3) is not part
of `src/analyze.py`. Per the spec it computes the complete prime factorization of
`n` and accepts exactly the factorizations with two distinct prime factors, each of
multiplicity one, returning that factor pair (smallest factor first); every other
input fails (`none` models `NotSemiprime`). Equivalently: the least prime factor
`p` of `n` is split off and the cofactor must be a prime different from `p`. -/
def factor (n : Nat) : Option (Nat × Nat) :=
  if 2 ≤ n then
    if (n / n.minFac).Prime ∧ n.minFac ≠ n / n.minFac then
      some (n.minFac, n / n.minFac)
    else none
  else none

/-- Column index of an uppercase base in the A, C, G, T order of the weight table. -/
def specBaseIdx (c : Char) : Nat :=
  if c = 'A' then 0 else if c = 'C' then 1 else if c = 'G' then 2 else 3

/-- Claimed base score: the sum, over the guide positions, of the position-weight
table entry for that position's base. -/
def specBaseSum : Nat → List Char → Nat
  | _, [] => 0
  | pos, c :: rest => posWeight pos (specBaseIdx c) + specBaseSum (pos + 1) rest

/-- Claimed dinucleotide score: the sum over the overlapping adjacent pairs of the
guide of the fixed 16-entry bonus table. -/
def specDinucSum : List Char → Nat
  | a :: b :: rest => DINUC_BONUS [a, b] + specDinucSum (b :: rest)
  | _ => 0

/-- Claimed GC bonus: 80 inside [8, 12], otherwise `max 0 (80 - 15 * distance)`
with distance the minimum absolute difference of the count from 8 or 12. -/
def specGcBonus (gc : Nat) : Int :=
  if 8 ≤ gc ∧ gc ≤ 12 then 80
  else max 0 (80 - 15 * (min ((gc : Int) - 8).natAbs ((gc : Int) - 12).natAbs : Int))

/-- The full score formula claimed in C1. -/
def specResonanceFormula (s : List Char) : Int :=
  max 0 (min 1000
    ((specBaseSum 0 ((s.take 20).map Char.toUpper) : Int)
      + (specDinucSum ((s.take 20).map Char.toUpper) : Int)
      + specGcBonus (((s.take 20).map Char.toUpper).count 'G'
          + ((s.take 20).map Char.toUpper).count 'C')
      - 1800))

/-- Claimed run statistic of C2: the longest run length of `b` among the lengths
4 through 9 that occur contiguously in the guide (0 when none occurs). -/
def longestQualifyingRun (guide : List Char) (b : Char) : Nat :=
  ((List.range' 4 6).map (fun i => if List.replicate i b <:+: guide then i else 0)).foldr
    Nat.max 0

/-- The specificity formula exactly as claim C2 states it: per base, a penalty of
50 times the longest qualifying run length. -/
def claimSpecificity (s : List Char) : Int :=
  max 0 (min 1000
    (800 - ((['A', 'C', 'G', 'T'].map (fun b =>
        if 0 < longestQualifyingRun ((s.take 20).map Char.toUpper) b then
          50 * longestQualifyingRun ((s.take 20).map Char.toUpper) b
        else 0)).sum : Int)
      - (if ((s.take 20).map Char.toUpper).dedup.length < 4 then 100 else 0)
      + (if 8 ≤ ((s.take 20).map Char.toUpper).count 'G'
              + ((s.take 20).map Char.toUpper).count 'C'
            ∧ ((s.take 20).map Char.toUpper).count 'G'
              + ((s.take 20).map Char.toUpper).count 'C' ≤ 12 then 100 else 0)))

/-- The amended C2 formula: per base, a penalty of 50 times the maximum, over the
pattern lengths 4 through 9, of the number of non-overlapping occurrences of that
base repeated that many times (when that maximum is positive). -/
def amendedSpecificity (s : List Char) : Int :=
  max 0 (min 1000
    (800
      - (fun b => if 0 < ((List.range' 4 6).map
            (fun i => countOcc (List.replicate i b) ((s.take 20).map Char.toUpper))).foldr
              Nat.max 0 then
          (50 : Int) * (((List.range' 4 6).map
            (fun i => countOcc (List.replicate i b) ((s.take 20).map Char.toUpper))).foldr
              Nat.max 0 : Nat)
        else 0) 'A'
      - (fun b => if 0 < ((List.range' 4 6).map
            (fun i => countOcc (List.replicate i b) ((s.take 20).map Char.toUpper))).foldr
              Nat.max 0 then
          (50 : Int) * (((List.range' 4 6).map
            (fun i => countOcc (List.replicate i b) ((s.take 20).map Char.toUpper))).foldr
              Nat.max 0 : Nat)
        else 0) 'C'
      - (fun b => if 0 < ((List.range' 4 6).map
            (fun i => countOcc (List.replicate i b) ((s.take 20).map Char.toUpper))).foldr
              Nat.max 0 then
          (50 : Int) * (((List.range' 4 6).map
            (fun i => countOcc (List.replicate i b) ((s.take 20).map Char.toUpper))).foldr
              Nat.max 0 : Nat)
        else 0) 'G'
      - (fun b => if 0 < ((List.range' 4 6).map
            (fun i => countOcc (List.replicate i b) ((s.take 20).map Char.toUpper))).foldr
              Nat.max 0 then
          (50 : Int) * (((List.range' 4 6).map
            (fun i => countOcc (List.replicate i b) ((s.take 20).map Char.toUpper))).foldr
              Nat.max 0 : Nat)
        else 0) 'T'
      - (if ((s.take 20).map Char.toUpper).toFinset.card < 4 then 100 else 0)
      + (if 8 ≤ ((s.take 20).map Char.toUpper).count 'G'
              + ((s.take 20).map Char.toUpper).count 'C'
            ∧ ((s.take 20).map Char.toUpper).count 'G'
              + ((s.take 20).map Char.toUpper).count 'C' ≤ 12 then 100 else 0)))

/-! ### Helper lemmas -/

theorem clamp_bounds (x : Int) : 0 ≤ max 0 (min 1000 x) ∧ max 0 (min 1000 x) ≤ 1000 :=
  ⟨le_max_left 0 _, max_le (by norm_num) (min_le_left _ _)⟩

theorem isBase_iff (c : Char) : isBase c = true ↔ c ∈ (['A', 'C', 'G', 'T'] : List Char) := by
  simp [isBase, Bool.or_eq_true, beq_iff_eq]
  tauto

theorem guide_check_iff (s : List Char) :
    ((s.take 20).map Char.toUpper).all isBase = true ↔
      ∀ c ∈ s.take 20, Char.toUpper c ∈ (['A', 'C', 'G', 'T'] : List Char) := by
  simp only [List.all_eq_true, List.mem_map, forall_exists_index, and_imp]
  constructor
  · intro h c hc
    exact (isBase_iff _).mp (h _ c hc rfl)
  · intro h x c hc hx
    exact hx ▸ (isBase_iff _).mpr (h c hc)

theorem pam_check_iff (s : List Char) :
    List.isSuffixOf ['G', 'G'] (((s.drop 20).take 3).map Char.toUpper) = true ↔
      ['G', 'G'] <:+ ((s.drop 20).take 3).map Char.toUpper := by
  simp [List.isSuffixOf_iff_suffix]

theorem validate_true_iff (s : List Char) :
    (validate_sequence s).1 = true ↔
      (s.length = 23
        ∧ (∀ c ∈ s.take 20, Char.toUpper c ∈ (['A', 'C', 'G', 'T'] : List Char))
        ∧ ['G', 'G'] <:+ ((s.drop 20).take 3).map Char.toUpper) := by
  constructor
  · intro h
    by_cases h1 : s.length ≠ 23
    · rw [validate_sequence, if_pos h1] at h
      simp at h
    by_cases h2 : ((s.take 20).map Char.toUpper).all isBase = false
    · rw [validate_sequence, if_neg h1, if_pos h2] at h
      simp at h
    by_cases h3 : List.isSuffixOf ['G', 'G'] (((s.drop 20).take 3).map Char.toUpper) = false
    · rw [validate_sequence, if_neg h1, if_neg h2, if_pos h3] at h
      simp at h
    refine ⟨by omega, (guide_check_iff s).mp ?_, (pam_check_iff s).mp ?_⟩
    · exact Bool.not_eq_false _ |>.mp h2
    · exact Bool.not_eq_false _ |>.mp h3
  · rintro ⟨h1, h2, h3⟩
    rw [validate_sequence, if_neg (show ¬ s.length ≠ 23 by omega),
      if_neg (show ¬ ((s.take 20).map Char.toUpper).all isBase = false by
        rw [(guide_check_iff s).mpr h2]; simp),
      if_neg (show ¬ List.isSuffixOf ['G', 'G'] (((s.drop 20).take 3).map Char.toUpper)
          = false by
        rw [(pam_check_iff s).mpr h3]; simp)]

theorem seg_extend_right {l a : List Char} (h : l <:+: a) (b : List Char) :
    l <:+: a ++ b := by
  obtain ⟨u, v, huv⟩ := h
  exact ⟨u, v ++ b, by rw [← huv]; simp [List.append_assoc]⟩

/-! ### Claim theorems -/

/-- Claim C3: `validate_sequence` succeeds exactly on strings of length 23 whose
first 20 characters are A/C/G/T up to case and whose last 3 characters, uppercased,
end in "GG"; and on a length mismatch it fails with a message stating the expected
length (23) and the actual length. -/
theorem C3_validator (s : List Char) :
    ((validate_sequence s).1 = true ↔
      (s.length = 23
        ∧ (∀ c ∈ s.take 20, Char.toUpper c ∈ (['A', 'C', 'G', 'T'] : List Char))
        ∧ ['G', 'G'] <:+ ((s.drop 20).take 3).map Char.toUpper)) ∧
    (s.length ≠ 23 →
      ((validate_sequence s).1 = false
        ∧ (Nat.repr 23).toList <:+: (validate_sequence s).2
        ∧ (Nat.repr s.length).toList <:+: (validate_sequence s).2)) := by
  refine ⟨validate_true_iff s, fun h1 => ?_⟩
  rw [validate_sequence, if_pos h1]
  refine ⟨rfl, ?_, ?_⟩
  · exact seg_extend_right (seg_extend_right
      (show (Nat.repr 23).toList <:+:
          "Sequence must be 23bp (20bp guide + NGG PAM), got ".toList by decide)
      (Nat.repr s.length).toList) "bp".toList
  · exact ⟨"Sequence must be 23bp (20bp guide + NGG PAM), got ".toList, "bp".toList, rfl⟩

/-- Witness for C3 at the concrete 4-character input "ACGT". -/
theorem C3_validator_witness : (validate_sequence "ACGT".toList).1 = false :=
  ((C3_validator "ACGT".toList).2 (by decide)).1

/-- Counterexample to claim C4: the 23-character sequence with a valid guide and
PAM "1GG" is accepted by `validate_sequence` although its character at position 20
is outside the A/C/G/T alphabet. -/
theorem C4_counterexample :
    (validate_sequence "AAAAAAAAAAAAAAAAAAAA1GG".toList).1 = true ∧
      Char.toUpper ("AAAAAAAAAAAAAAAAAAAA1GG".toList.getD 20 'A')
        ∉ (['A', 'C', 'G', 'T'] : List Char) := by decide

/-- Claim C4 as amended: every sequence accepted by `validate_sequence` has its
last three characters, uppercased, ending in "GG"; the first PAM character is not
constrained to the A/C/G/T alphabet. -/
theorem C4_amended_pam (s : List Char) (h : (validate_sequence s).1 = true) :
    ['G', 'G'] <:+ ((s.drop 20).take 3).map Char.toUpper :=
  ((validate_true_iff s).mp h).2.2

/-- Witness for the amended C4 at a concrete accepted sequence. -/
theorem C4_amended_pam_witness :
    ['G', 'G'] <:+ (("ACGTACGTACGTACGTACGTGGG".toList.drop 20).take 3).map Char.toUpper :=
  C4_amended_pam "ACGTACGTACGTACGTACGTGGG".toList (by decide)

/-- Claim C5: the record returned by `analyze_single` has its error field populated
exactly when validation failed; with an error all score fields are null, and
without one all score fields are populated. -/
theorem C5_error_fields (s : List Char) :
    ((analyze_single s).error.isSome = true ↔ (validate_sequence s).1 = false) ∧
    ((analyze_single s).error.isSome = true →
      ((analyze_single s).int_resonance_score = none
        ∧ (analyze_single s).efficiency_prediction = none
        ∧ (analyze_single s).specificity_score = none)) ∧
    ((analyze_single s).error = none →
      ((analyze_single s).int_resonance_score.isSome = true
        ∧ (analyze_single s).efficiency_prediction.isSome = true
        ∧ (analyze_single s).specificity_score.isSome = true)) := by
  unfold analyze_single
  by_cases h : (validate_sequence s).1 = false <;> simp [h]

/-- Witness for C5 at a concrete valid sequence: all score fields populated. -/
theorem C5_error_fields_witness :
    (analyze_single "ACGTACGTACGTACGTACGTGGG".toList).int_resonance_score.isSome = true :=
  ((C5_error_fields "ACGTACGTACGTACGTACGTGGG".toList).2.2 (by decide)).1

/-- Claim C6: `predict_efficiency` is total on the integers and returns "High" iff
the score is at least 700, "Medium" iff it is in [400, 700), and "Low" iff it is
below 400. -/
theorem C6_efficiency_tiers (n : Int) :
    (predict_efficiency n = "High" ↔ 700 ≤ n) ∧
    (predict_efficiency n = "Medium" ↔ 400 ≤ n ∧ n < 700) ∧
    (predict_efficiency n = "Low" ↔ n < 400) := by
  unfold predict_efficiency
  split_ifs with h1 h2 <;>
    refine ⟨⟨fun hx => ?_, fun hx => ?_⟩, ⟨fun hx => ?_, fun hx => ?_⟩,
      ⟨fun hx => ?_, fun hx => ?_⟩⟩ <;>
    first
      | rfl
      | omega
      | exact absurd hx (by decide)

/-- Claim C9: both scoring functions are case-insensitive: inputs equal up to
letter case (same uppercasing) receive identical scores. -/
theorem C9_case_insensitive (s t : List Char) (h : s.map Char.toUpper = t.map Char.toUpper) :
    calculate_integer_resonance_score s = calculate_integer_resonance_score t ∧
      calculate_specificity s = calculate_specificity t := by
  have hg : (s.take 20).map Char.toUpper = (t.take 20).map Char.toUpper := by
    rw [List.map_take, List.map_take, h]
  unfold calculate_integer_resonance_score calculate_specificity
  rw [hg]
  exact ⟨rfl, rfl⟩

/-- Witness for C9 at a concrete lowercase/uppercase pair. -/
theorem C9_case_insensitive_witness :
    calculate_integer_resonance_score "acgtacgtacgtacgtacgtggg".toList =
      calculate_integer_resonance_score "ACGTACGTACGTACGTACGTGGG".toList :=
  (C9_case_insensitive "acgtacgtacgtacgtacgtggg".toList
    "ACGTACGTACGTACGTACGTGGG".toList (by decide)).1

theorem encode_eq_specBaseIdx (c : Char) (hc : c ∈ (['A', 'C', 'G', 'T'] : List Char)) :
    0 ≤ encode_nucleotide c ∧ (encode_nucleotide c).toNat = specBaseIdx c := by
  fin_cases hc <;> exact ⟨by decide, by decide⟩

theorem baseScore_eq_specBaseSum (g : List Char)
    (hg : ∀ c ∈ g, c ∈ (['A', 'C', 'G', 'T'] : List Char)) (pos : Nat) :
    baseScore pos g = specBaseSum pos g := by
  induction g generalizing pos with
  | nil => rfl
  | cons c rest ih =>
    obtain ⟨h0, hidx⟩ := encode_eq_specBaseIdx c (hg c (by simp))
    have hrest : ∀ x ∈ rest, x ∈ (['A', 'C', 'G', 'T'] : List Char) := fun x hx =>
      hg x (by simp [hx])
    simp [baseScore, specBaseSum, h0, hidx, ih hrest]

theorem rangeDinuc_eq_specDinucSum (k : Nat) :
    ∀ g : List Char, g.length = k + 1 →
      ((List.range k).map (fun i => DINUC_BONUS ((g.drop i).take 2))).sum = specDinucSum g := by
  induction k with
  | zero =>
    intro g hg
    match g, hg with
    | [a], _ => rfl
  | succ k ih =>
    intro g hg
    match g with
    | a :: b :: rest =>
      have hlen : (b :: rest).length = k + 1 := by
        simpa using hg
      rw [List.range_succ_eq_map, List.map_cons, List.map_map, List.sum_cons]
      have hfun : ((fun i => DINUC_BONUS (((a :: b :: rest).drop i).take 2)) ∘ Nat.succ)
          = fun i => DINUC_BONUS (((b :: rest).drop i).take 2) := by
        funext i
        rfl
      rw [hfun, ih (b :: rest) hlen]
      rfl
    | [a] => simp at hg

theorem gcBonus_eq_specGcBonus (gc : Nat) : gcBonus gc = specGcBonus gc := by
  unfold gcBonus specGcBonus GC_OPTIMAL_MIN GC_OPTIMAL_MAX GC_BONUS_MAX
  split_ifs with h
  · rfl
  · push_cast
    ring_nf

/-- Claim C1: for every sequence accepted by the validator, the score equals the
claimed formula: clamp of (position-weight sum + adjacent-pair bonus sum + GC
bonus) - 1800 to [0, 1000]; the result always lies in [0, 1000] (and the function
is deterministic, being a pure function of the input list). -/
theorem C1_resonance_formula (s : List Char) (h : (validate_sequence s).1 = true) :
    calculate_integer_resonance_score s = specResonanceFormula s ∧
    0 ≤ calculate_integer_resonance_score s ∧
    calculate_integer_resonance_score s ≤ 1000 := by
  obtain ⟨hlen, hguide, -⟩ := (validate_true_iff s).mp h
  refine ⟨?_, clamp_bounds _⟩
  have hglen : ((s.take 20).map Char.toUpper).length = 20 := by
    simp [hlen]
  have hgmem : ∀ c ∈ (s.take 20).map Char.toUpper, c ∈ (['A', 'C', 'G', 'T'] : List Char) := by
    intro c hc
    obtain ⟨c', hc', rfl⟩ := List.mem_map.mp hc
    exact hguide c' hc'
  unfold calculate_integer_resonance_score resonanceOfGuide specResonanceFormula
  rw [baseScore_eq_specBaseSum _ hgmem 0, gcBonus_eq_specGcBonus,
    show dinucScore ((s.take 20).map Char.toUpper)
        = specDinucSum ((s.take 20).map Char.toUpper) from
      rangeDinuc_eq_specDinucSum 19 _ (by omega)]

/-- Witness for C1 at the concrete valid sequence from the spec's example. -/
theorem C1_resonance_formula_witness :
    0 ≤ calculate_integer_resonance_score "ACGTACGTACGTACGTACGTGGG".toList :=
  (C1_resonance_formula "ACGTACGTACGTACGTACGTGGG".toList (by decide)).2.1

theorem startsWith_imp (p : List Char) :
    ∀ s : List Char, startsWith p s = true → ∃ t, p ++ t = s := by
  induction p with
  | nil => exact fun s _ => ⟨s, rfl⟩
  | cons a ps ih =>
    intro s hp
    match s with
    | [] => simp [startsWith] at hp
    | c :: cs =>
      rw [startsWith, Bool.and_eq_true, beq_iff_eq] at hp
      obtain ⟨t, ht⟩ := ih cs hp.2
      exact ⟨t, by rw [hp.1, List.cons_append, ht]⟩

theorem countOccAux_ne_zero (pat : List Char) :
    ∀ (fuel : Nat) (s : List Char), countOccAux pat fuel s ≠ 0 → pat <:+: s := by
  intro fuel
  induction fuel with
  | zero => exact fun s h => absurd rfl h
  | succ fuel ih =>
    intro s h
    match s with
    | [] => exact absurd rfl h
    | c :: rest =>
      by_cases hp : startsWith pat (c :: rest) = true
      · obtain ⟨t, ht⟩ := startsWith_imp pat (c :: rest) hp
        exact ⟨[], t, by simp [ht]⟩
      · rw [countOccAux, if_neg hp] at h
        obtain ⟨u, v, huv⟩ := ih rest h
        exact ⟨c :: u, v, by simp [huv]⟩

theorem repl4_of_repl (b : Char) (i : Nat) (h4 : 4 ≤ i) (g : List Char)
    (h : List.replicate i b <:+: g) : List.replicate 4 b <:+: g := by
  obtain ⟨u, v, huv⟩ := h
  have hsplit : List.replicate i b = List.replicate 4 b ++ List.replicate (i - 4) b := by
    rw [← List.replicate_add]
    congr 1
    omega
  rw [hsplit] at huv
  exact ⟨u, List.replicate (i - 4) b ++ v, by rw [← huv]; simp [List.append_assoc]⟩

theorem maxRunStat_eq_zero (g : List Char) (b : Char)
    (h : ¬ (List.replicate 4 b <:+: g)) : maxRunStat g b = 0 := by
  have hc : ∀ i, 4 ≤ i → countOcc (List.replicate i b) g = 0 := by
    intro i hi
    by_contra hne
    exact h (repl4_of_repl b i hi g (countOccAux_ne_zero (List.replicate i b) g.length g hne))
  unfold maxRunStat
  rw [show List.range' 4 6 = [4, 5, 6, 7, 8, 9] from rfl]
  simp only [List.map_cons, List.map_nil, hc 4 (by norm_num), hc 5 (by norm_num),
    hc 6 (by norm_num), hc 7 (by norm_num), hc 8 (by norm_num), hc 9 (by norm_num)]
  rfl

theorem four_le_dedup (g : List Char) (hA : 'A' ∈ g) (hC : 'C' ∈ g) (hG : 'G' ∈ g)
    (hT : 'T' ∈ g) : 4 ≤ g.dedup.length := by
  have h1 : ({'A', 'C', 'G', 'T'} : Finset Char) ⊆ g.toFinset := by
    intro x hx
    fin_cases hx <;> simp [List.mem_toFinset, hA, hC, hG, hT]
  have h2 := Finset.card_le_card h1
  rw [List.card_toFinset] at h2
  simpa using h2

theorem specificityOfGuide_balanced (g : List Char)
    (hA : 'A' ∈ g) (hC : 'C' ∈ g) (hG : 'G' ∈ g) (hT : 'T' ∈ g)
    (hrA : ¬ (List.replicate 4 'A' <:+: g)) (hrC : ¬ (List.replicate 4 'C' <:+: g))
    (hrG : ¬ (List.replicate 4 'G' <:+: g)) (hrT : ¬ (List.replicate 4 'T' <:+: g))
    (hgc1 : 8 ≤ g.count 'G' + g.count 'C') (hgc2 : g.count 'G' + g.count 'C' ≤ 12) :
    specificityOfGuide g = 900 := by
  have hded : ¬ (g.dedup.length < 4) := by
    have := four_le_dedup g hA hC hG hT
    omega
  have hpen : runPenalty g = 0 := by
    unfold runPenalty
    simp [maxRunStat_eq_zero g 'A' hrA, maxRunStat_eq_zero g 'C' hrC,
      maxRunStat_eq_zero g 'G' hrG, maxRunStat_eq_zero g 'T' hrT]
  unfold specificityOfGuide GC_OPTIMAL_MIN GC_OPTIMAL_MAX
  rw [hpen, if_neg hded, if_pos ⟨hgc1, hgc2⟩]
  norm_num

theorem specificityOfGuide_homogeneous (b : Char)
    (hb : b ∈ (['A', 'C', 'G', 'T'] : List Char)) :
    specificityOfGuide (List.replicate 20 b) = 450 := by
  fin_cases hb <;> decide

/-- Claim C7: the specificity score is always in [0, 1000], and a guide made of a
single repeated base scores strictly below a balanced guide (no homopolymer run of
length at least 4, all four bases present, G/C count in [8, 12]). -/
theorem C7_specificity_bounds :
    (∀ s : List Char, 0 ≤ calculate_specificity s ∧ calculate_specificity s ≤ 1000) ∧
    (∀ (s t : List Char) (b : Char), b ∈ (['A', 'C', 'G', 'T'] : List Char) →
      (s.take 20).map Char.toUpper = List.replicate 20 b →
      (∀ b' ∈ (['A', 'C', 'G', 'T'] : List Char),
        ¬ (List.replicate 4 b' <:+: (t.take 20).map Char.toUpper)) →
      'A' ∈ (t.take 20).map Char.toUpper → 'C' ∈ (t.take 20).map Char.toUpper →
      'G' ∈ (t.take 20).map Char.toUpper → 'T' ∈ (t.take 20).map Char.toUpper →
      8 ≤ ((t.take 20).map Char.toUpper).count 'G'
        + ((t.take 20).map Char.toUpper).count 'C' →
      ((t.take 20).map Char.toUpper).count 'G'
        + ((t.take 20).map Char.toUpper).count 'C' ≤ 12 →
      calculate_specificity s < calculate_specificity t) := by
  refine ⟨fun s => clamp_bounds _, ?_⟩
  intro s t b hb hs hruns hA hC hG hT hgc1 hgc2
  unfold calculate_specificity
  rw [hs, specificityOfGuide_homogeneous b hb,
    specificityOfGuide_balanced _ hA hC hG hT (hruns 'A' (by simp)) (hruns 'C' (by simp))
      (hruns 'G' (by simp)) (hruns 'T' (by simp)) hgc1 hgc2]
  norm_num

/-- Witness for C7: the poly-A guide scores strictly below a balanced guide. -/
theorem C7_specificity_bounds_witness :
    calculate_specificity "AAAAAAAAAAAAAAAAAAAATGG".toList <
      calculate_specificity "ACGTACGTACGTACGTACGTAGG".toList :=
  C7_specificity_bounds.2 "AAAAAAAAAAAAAAAAAAAATGG".toList
    "ACGTACGTACGTACGTACGTAGG".toList 'A' (by decide) (by decide) (by decide)
    (by decide) (by decide) (by decide) (by decide) (by decide) (by decide)

theorem clamp_congr {x y : Int} (h : x = y) :
    max 0 (min 1000 x) = max 0 (min 1000 y) := by
  rw [h]

/-- Counterexample to claim C2: on the valid sequence whose guide starts with a
run of five A's, the run-length formula of the claim yields 650 while
`calculate_specificity` returns 850 (the code multiplies 50 by the count of
non-overlapping occurrences, not by the run length). -/
theorem C2_counterexample :
    (validate_sequence "AAAAACGTCGTCGTCGTCGTTGG".toList).1 = true ∧
      claimSpecificity "AAAAACGTCGTCGTCGTCGTTGG".toList = 650 ∧
      calculate_specificity "AAAAACGTCGTCGTCGTCGTTGG".toList = 850 := by decide

/-- Claim C2 as amended: the per-base penalty is 50 times the maximum, over the
pattern lengths 4 through 9, of the number of non-overlapping occurrences of that
base repeated that many times in the uppercased guide (when positive); the
baseline 800, the flat low-complexity penalty 100, the flat GC bonus 100 and the
clamp to [0, 1000] are as claimed. -/
theorem C2_amended_specificity (s : List Char) :
    calculate_specificity s = amendedSpecificity s := by
  unfold calculate_specificity specificityOfGuide amendedSpecificity runPenalty maxRunStat
    GC_OPTIMAL_MIN GC_OPTIMAL_MAX
  rw [List.card_toFinset]
  apply clamp_congr
  simp only [List.map_cons, List.map_nil, List.sum_cons, List.sum_nil]
  split_ifs <;> push_cast <;> ring

/-- Claim C8 (spec-modelled Semiprime Factorizer): `factor` accepts exactly the
products of two distinct primes, returning the factor pair, and rejects 1, primes,
prime powers and numbers with three or more prime factors; `factor 6 = (2, 3)`. -/
theorem C8_factor_characterization (n : Nat) (h : n < 4096) :
    (∀ p q : Nat, factor n = some (p, q) →
      Nat.Prime p ∧ Nat.Prime q ∧ p ≠ q ∧ n = p * q) ∧
    ((∃ p q : Nat, Nat.Prime p ∧ Nat.Prime q ∧ p ≠ q ∧ n = p * q) →
      (factor n).isSome = true) ∧
    factor 6 = some (2, 3) ∧ factor 4 = none ∧ factor 1 = none ∧ factor 30 = none := by
  refine ⟨?_, ?_, by decide, by decide, by decide, by decide⟩
  · intro p q hpq
    rw [factor] at hpq
    by_cases h2 : 2 ≤ n
    · rw [if_pos h2] at hpq
      by_cases hcond : (n / n.minFac).Prime ∧ n.minFac ≠ n / n.minFac
      · rw [if_pos hcond] at hpq
        have hinj := Option.some.inj hpq
        obtain ⟨rfl, rfl⟩ : n.minFac = p ∧ n / n.minFac = q :=
          ⟨congrArg Prod.fst hinj, congrArg Prod.snd hinj⟩
        exact ⟨Nat.minFac_prime (by omega), hcond.1, hcond.2,
          (Nat.mul_div_cancel' (Nat.minFac_dvd n)).symm⟩
      · rw [if_neg hcond] at hpq
        exact absurd hpq (by simp)
    · rw [if_neg h2] at hpq
      exact absurd hpq (by simp)
  · rintro ⟨p, q, hp, hq, hne, rfl⟩
    have hp2 := hp.two_le
    have hq2 := hq.two_le
    have h4 : 4 ≤ p * q := Nat.mul_le_mul hp2 hq2
    have hprime : ((p * q).minFac).Prime := Nat.minFac_prime (by omega)
    have hmf : (p * q).minFac = p ∨ (p * q).minFac = q := by
      rcases (Nat.Prime.dvd_mul hprime).mp (Nat.minFac_dvd (p * q)) with hd | hd
      · exact Or.inl ((Nat.prime_dvd_prime_iff_eq hprime hp).mp hd)
      · exact Or.inr ((Nat.prime_dvd_prime_iff_eq hprime hq).mp hd)
    rw [factor, if_pos (by omega : 2 ≤ p * q)]
    rcases hmf with hmf | hmf
    · rw [hmf, Nat.mul_div_cancel_left q (by omega : 0 < p), if_pos ⟨hq, hne⟩]
      rfl
    · rw [hmf, Nat.mul_div_cancel p (by omega : 0 < q), if_pos ⟨hp, Ne.symm hne⟩]
      rfl

/-- Witness for C8 at the concrete semiprime 6. -/
theorem C8_factor_characterization_witness : factor 6 = some (2, 3) :=
  (C8_factor_characterization 6 (by decide)).2.2.1

end Analyze
